import Mathlib

/-!
Verification development for the qutip excerpt (fileio.py, the stochastic
solver test-suite contract, and the core package wiring).

Part 1 embeds `src/qutip/fileio.py` (file_data_store, file_data_read,
qsave, qload).  Files are modelled as lists of raw lines (each line as
produced by Python file iteration, i.e. usually ending in a newline);
the filesystem is a map from path strings to file contents.  Numeric
conversion of individual fields (Python float()/complex(), IEEE 754) is
kept abstract: file_data_read returns the raw field strings together with
the detected numtype/numformat tags, and file_data_store is parametrised
by the element-formatting function.  All control flow, separator
detection, column counting and error raising is translated verbatim.

Part 2 models the stochastic solver (smesolve/ssesolve) from the spec,
since only its test suite is present in the excerpt.
-/

namespace QutipFileio

/-- Python whitespace characters recognised by str.split() / str.rstrip()
(ASCII range, as relevant for text data files). -/
def isPySpace (c : Char) : Bool :=
  c = ' ' || c = '\t' || c = '\n' || c = '\r' || c = '\x0b' || c = '\x0c'

/-- Python str.rstrip(): drop trailing whitespace characters. -/
def pyRstrip (s : String) : String :=
  String.mk ((s.data.reverse.dropWhile isPySpace).reverse)

/-- Helper for `sepSplit`: accumulates the current field (reversed). -/
def sepSplitAux (c : Char) : List Char → List Char → List (List Char)
  | [], acc => [acc.reverse]
  | d :: ds, acc =>
    if d = c then acc.reverse :: sepSplitAux c ds []
    else sepSplitAux c ds (d :: acc)

/-- Python str.split(sep) for a one-character separator: split on every
occurrence, keeping empty fields; the empty string yields one empty field. -/
def sepSplit (c : Char) (l : List Char) : List (List Char) :=
  sepSplitAux c l []

/-- Helper for `wsSplit`: accumulates the current field (reversed). -/
def wsSplitAux : List Char → List Char → List (List Char)
  | [], acc => if acc.isEmpty then [] else [acc.reverse]
  | d :: ds, acc =>
    if isPySpace d then
      if acc.isEmpty then wsSplitAux ds []
      else acc.reverse :: wsSplitAux ds []
    else wsSplitAux ds (d :: acc)

/-- Python str.split() with no argument: split on runs of whitespace,
discarding empty fields; an all-whitespace string yields no fields. -/
def wsSplit (l : List Char) : List (List Char) :=
  wsSplitAux l []

/-- Python line.split(sep) where sep may be None (whitespace mode), as
used in file_data_read.  `none` is whitespace splitting. -/
def pyFields (sep : Option Char) (s : String) : List String :=
  match sep with
  | some c => (sepSplit c s.data).map String.mk
  | none => (wsSplit s.data).map String.mk

/-- Comment-line test of file_data_read: first character is '#' or '%'.
(Lines produced by file iteration are never empty.) -/
def isCommentLine (s : String) : Bool :=
  match s.data with
  | [] => false
  | c :: _ => c = '#' || c = '%'

/-- Separator detection of file_data_read (lines 140-153 of fileio.py):
on the first data line, with no separator supplied, try in this fixed
order whether ',', ';', ':' or '|' splits the rstripped line into more
than one field; otherwise fall back to whitespace (`none`); otherwise
raise ValueError. -/
def detectStep (line : String) : Except String (Option Char) :=
  let r := (pyRstrip line).data
  if 1 < (sepSplit ',' r).length then .ok (some ',')
  else if 1 < (sepSplit ';' r).length then .ok (some ';')
  else if 1 < (sepSplit ':' r).length then .ok (some ':')
  else if 1 < (sepSplit '|' r).length then .ok (some '|')
  else if 1 < (wsSplit r).length then .ok none
  else .error "Unrecognized column deliminator"

/-- State of the first (counting) pass of file_data_read: the current
separator, the number of data rows M seen so far, the column count N
fixed by the first data line (0 while unset), and the numtype/numformat
tags detected from the first field of the first data line (`none` while
the Python locals are still unbound). -/
structure ScanState where
  sep : Option Char
  rowsM : Nat
  colsN : Nat
  numtype : Option String
  numformat : Option String
  deriving Repr, DecidableEq

/-- One iteration of the counting loop of file_data_read (lines 135-174):
skip comment lines; detect the separator on the first data line when none
was supplied; split the raw line; fix N, numtype and numformat from the
first data line; raise on any later line whose field count differs. -/
def scanLine (st : ScanState) (line : String) : Except String ScanState :=
  if isCommentLine line then .ok st
  else
    match (if st.colsN = 0 ∧ st.sep = none then detectStep line
           else .ok st.sep) with
    | .error e => .error e
    | .ok sep2 =>
      let lineVec := pyFields sep2 line
      let n := lineVec.length
      if st.colsN = 0 ∧ 0 < n then
        let f := lineVec.headD ""
        .ok { sep := sep2, rowsM := st.rowsM + 1, colsN := n,
              numtype := some (if f.contains 'j' || f.contains 'i'
                               then "complex" else "np.real"),
              numformat := some (if f.contains 'e' || f.contains 'E'
                                 then "exp" else "decimal") }
      else if st.colsN ≠ n then
        .error "Badly formatted data file: unequal number of columns"
      else
        .ok { st with sep := sep2, rowsM := st.rowsM + 1 }

/-- Initial scan state with the caller-supplied separator. -/
def initState (sep : Option Char) : ScanState :=
  { sep := sep, rowsM := 0, colsN := 0, numtype := none, numformat := none }

/-- The counting loop of file_data_read, iterated over the lines of the
file; the first raised ValueError aborts the loop. -/
def scanLines (st : ScanState) : List String → Except String ScanState
  | [] => .ok st
  | l :: ls =>
    match scanLine st l with
    | .error e => .error e
    | .ok st2 => scanLines st2 ls

/-- First pass of file_data_read over all lines of the file. -/
def firstPass (sep : Option Char) (lines : List String) :
    Except String ScanState :=
  scanLines (initState sep) lines

/-- Second pass of file_data_read (lines 179-205): after seeking back to
the start, each non-comment line is rstripped and split with the resolved
separator into the fields that are handed to complex()/float(). -/
def secondPass (sep : Option Char) (lines : List String) :
    List (List String) :=
  (lines.filter (fun l => !isCommentLine l)).map
    (fun l => pyFields sep (pyRstrip l))

/-- Outcome of file_data_read: the detected numtype/numformat tags, the
counted matrix dimensions, and the raw field strings of each data row
(numeric conversion is outside the embedding). -/
structure ReadResult where
  numtype : String
  numformat : String
  rowsM : Nat
  colsN : Nat
  rows : List (List String)
  deriving Repr, DecidableEq

/-- Embedding of file_data_read.  The argument is the opened file as a
list of raw lines, with `none` standing for `filename is None`.  Errors
are the ValueError messages of the source; a file with no data row makes
the source read the unbound local `numtype`, modelled as a NameError. -/
def file_data_read (file : Option (List String)) (sep : Option Char) :
    Except String ReadResult :=
  match file with
  | none => .error "filename is unspecified"
  | some lines =>
    match firstPass sep lines with
    | .error e => .error e
    | .ok st =>
      match st.numtype, st.numformat with
      | some nt, some nf =>
        .ok { numtype := nt, numformat := nf, rowsM := st.rowsM,
              colsN := st.colsN, rows := secondPass st.sep lines }
      | _, _ => .error "NameError: numtype referenced before assignment"

/-- The separator that file_data_read ends up splitting with: the
caller-supplied one when present, otherwise the one detected from the
first data line. -/
def resolvedSep (sep : Option Char) (line : String) :
    Except String (Option Char) :=
  match sep with
  | some c => .ok (some c)
  | none => detectStep line

/-- Variant of the counting-loop body that follows the specification
claim: every line is split with one fixed separator, with no detection
step at all. -/
def scanLineFixed (s : Option Char) (st : ScanState) (line : String) :
    Except String ScanState :=
  if isCommentLine line then .ok st
  else
    let lineVec := pyFields s line
    let n := lineVec.length
    if st.colsN = 0 ∧ 0 < n then
      let f := lineVec.headD ""
      .ok { sep := s, rowsM := st.rowsM + 1, colsN := n,
            numtype := some (if f.contains 'j' || f.contains 'i'
                             then "complex" else "np.real"),
            numformat := some (if f.contains 'e' || f.contains 'E'
                               then "exp" else "decimal") }
    else if st.colsN ≠ n then
      .error "Badly formatted data file: unequal number of columns"
    else
      .ok { st with sep := s, rowsM := st.rowsM + 1 }

/-- Counting loop of the fixed-separator variant. -/
def scanLinesFixed (s : Option Char) (st : ScanState) :
    List String → Except String ScanState
  | [] => .ok st
  | l :: ls =>
    match scanLineFixed s st l with
    | .error e => .error e
    | .ok st2 => scanLinesFixed s st2 ls

/-- Reading a file with one fixed separator used to split every line —
the behaviour the specification ascribes to file_data_read once the
separator has been inferred from the first non-comment line. -/
def file_data_read_fixedSep (s : Option Char) (lines : List String) :
    Except String ReadResult :=
  match scanLinesFixed s (initState s) lines with
  | .error e => .error e
  | .ok st =>
    match st.numtype, st.numformat with
    | some nt, some nf =>
      .ok { numtype := nt, numformat := nf, rowsM := st.rowsM,
            colsN := st.colsN, rows := secondPass s lines }
    | _, _ => .error "NameError: numtype referenced before assignment"

theorem sepSplitAux_ne_nil (c : Char) (l acc : List Char) :
    sepSplitAux c l acc ≠ [] := by
  induction l generalizing acc with
  | nil => simp [sepSplitAux]
  | cons d ds ih =>
    simp only [sepSplitAux]
    split
    · simp
    · exact ih _

theorem sepSplit_ne_nil (c : Char) (l : List Char) : sepSplit c l ≠ [] :=
  sepSplitAux_ne_nil c l []

theorem wsSplitAux_eq_nil (l acc : List Char) :
    wsSplitAux l acc = [] ↔ (∀ c ∈ l, isPySpace c) ∧ acc.isEmpty := by
  induction l generalizing acc with
  | nil => by_cases h : acc.isEmpty <;> simp [wsSplitAux, h]
  | cons d ds ih =>
    by_cases hd : isPySpace d
    · by_cases ha : acc.isEmpty
      · simp [wsSplitAux, hd, ha, ih]
      · simp [wsSplitAux, hd, ha]
    · simp [wsSplitAux, hd, ih]

theorem wsSplit_eq_nil (l : List Char) :
    wsSplit l = [] ↔ ∀ c ∈ l, isPySpace c := by
  simp [wsSplit, wsSplitAux_eq_nil]

theorem pyRstrip_decomp (s : String) :
    ∃ w, s.data = (pyRstrip s).data ++ w ∧ ∀ c ∈ w, isPySpace c := by
  refine ⟨(s.data.reverse.takeWhile isPySpace).reverse, ?_, ?_⟩
  · show s.data = (s.data.reverse.dropWhile isPySpace).reverse ++ _
    calc s.data = s.data.reverse.reverse := (List.reverse_reverse _).symm
      _ = (s.data.reverse.takeWhile isPySpace
            ++ s.data.reverse.dropWhile isPySpace).reverse := by
          rw [List.takeWhile_append_dropWhile]
      _ = (s.data.reverse.dropWhile isPySpace).reverse
            ++ (s.data.reverse.takeWhile isPySpace).reverse := by
          rw [List.reverse_append]
  · intro c hc
    rw [List.mem_reverse] at hc
    exact List.mem_takeWhile_imp hc

theorem pyFields_pos_of_detect (line : String) (s : Option Char)
    (hs : detectStep line = .ok s) : 0 < (pyFields s line).length := by
  cases s with
  | some c =>
    rw [pyFields, List.length_map, List.length_pos]
    exact sepSplit_ne_nil c _
  | none =>
    rw [pyFields, List.length_map, List.length_pos]
    simp only [detectStep] at hs
    split_ifs at hs with h1 h2 h3 h4 h5
    · simp at hs
    · simp at hs
    · simp at hs
    · simp at hs
    · intro hnil
      rw [wsSplit_eq_nil] at hnil
      obtain ⟨w, hw, _⟩ := pyRstrip_decomp line
      have hr : wsSplit (pyRstrip line).data = [] := by
        rw [wsSplit_eq_nil]
        intro c hc
        refine hnil c ?_
        rw [hw]
        exact List.mem_append_left _ hc
      rw [hr] at h5
      simp at h5

theorem scanLine_comment (st : ScanState) (l : String)
    (h : isCommentLine l = true) : scanLine st l = .ok st := by
  simp [scanLine, h]

theorem scanLines_filter (lines : List String) (st : ScanState) :
    scanLines st lines =
      scanLines st (lines.filter (fun l => !isCommentLine l)) := by
  induction lines generalizing st with
  | nil => rfl
  | cons l ls ih =>
    by_cases h : isCommentLine l
    · have h1 : scanLines st (l :: ls) = scanLines st ls := by
        simp [scanLines, scanLine_comment st l h]
      have h2 : (l :: ls).filter (fun x => !isCommentLine x)
          = ls.filter (fun x => !isCommentLine x) := by
        simp [List.filter_cons, h]
      rw [h1, h2, ih]
    · have h2 : (l :: ls).filter (fun x => !isCommentLine x)
          = l :: ls.filter (fun x => !isCommentLine x) := by
        simp [List.filter_cons, h]
      rw [h2]
      simp only [scanLines]
      cases hsc : scanLine st l with
      | error e => rfl
      | ok st2 => exact ih st2

theorem scanLine_progress (st : ScanState) (l : String)
    (hN : st.colsN ≠ 0) :
    scanLine st l = .error "Badly formatted data file: unequal number of columns" ∨
    ∃ st2, scanLine st l = .ok st2 ∧ st2.colsN = st.colsN ∧ st2.sep = st.sep := by
  by_cases hc : isCommentLine l
  · exact .inr ⟨st, scanLine_comment st l hc, rfl, rfl⟩
  · by_cases hn : st.colsN = (pyFields st.sep l).length
    · right
      refine ⟨{ st with sep := st.sep, rowsM := st.rowsM + 1 }, ?_, rfl, rfl⟩
      have c1 : ¬(st.colsN = 0 ∧ st.sep = none) := fun h => hN h.1
      have c2 : ¬(st.colsN = 0 ∧ 0 < (pyFields st.sep l).length) := fun h => hN h.1
      have c3 : ¬(st.colsN ≠ (pyFields st.sep l).length) := fun h => h hn
      simp only [scanLine, if_neg hc, if_neg c1, if_neg c2, if_neg c3]
    · left
      simp [scanLine, hc, hN, hn]

theorem scanLines_mismatch (lines : List String) (st : ScanState)
    (hN : st.colsN ≠ 0) (bad : String) (hmem : bad ∈ lines)
    (hnc : isCommentLine bad = false)
    (hbad : (pyFields st.sep bad).length ≠ st.colsN) :
    scanLines st lines =
      .error "Badly formatted data file: unequal number of columns" := by
  induction lines generalizing st with
  | nil => cases hmem
  | cons l ls ih =>
    rcases List.mem_cons.mp hmem with heq | hmem2
    · subst heq
      have hstep : scanLine st bad =
          .error "Badly formatted data file: unequal number of columns" := by
        simp [scanLine, hnc, hN, Ne.symm hbad]
      simp [scanLines, hstep]
    · rcases scanLine_progress st l hN with herr | ⟨st2, hok, hcols, hsep⟩
      · simp [scanLines, herr]
      · simp only [scanLines, hok]
        refine ih st2 ?_ hmem2 ?_
        · rw [hcols]; exact hN
        · rw [hsep, hcols]; exact hbad

/-- State of the counting loop right after the first data line was
processed with separator s: one row counted, N fixed to its field
count, numtype/numformat detected from its first field. -/
def firstLineState (s : Option Char) (line0 : String) : ScanState :=
  { sep := s, rowsM := 1, colsN := (pyFields s line0).length,
    numtype := some (if ((pyFields s line0).headD "").contains 'j'
                        || ((pyFields s line0).headD "").contains 'i'
                     then "complex" else "np.real"),
    numformat := some (if ((pyFields s line0).headD "").contains 'e'
                          || ((pyFields s line0).headD "").contains 'E'
                       then "exp" else "decimal") }

theorem scanLine_first (sep0 : Option Char) (line0 : String) (s : Option Char)
    (hnc : isCommentLine line0 = false)
    (hs : resolvedSep sep0 line0 = .ok s)
    (hn : 0 < (pyFields s line0).length) :
    scanLine (initState sep0) line0 = .ok (firstLineState s line0) := by
  cases sep0 with
  | some c =>
    have hsc : s = some c := by
      simpa [resolvedSep] using hs.symm
    subst hsc
    simp [scanLine, hnc, initState, hn, firstLineState]
  | none =>
    simp only [resolvedSep] at hs
    simp [scanLine, hnc, initState, hs, hn, firstLineState]

theorem scanLineFixed_first (s : Option Char) (line0 : String)
    (hnc : isCommentLine line0 = false)
    (hn : 0 < (pyFields s line0).length) :
    scanLineFixed s (initState s) line0 = .ok (firstLineState s line0) := by
  simp [scanLineFixed, hnc, initState, hn, firstLineState]

theorem scanLineFixed_comment (s : Option Char) (st : ScanState) (l : String)
    (h : isCommentLine l = true) : scanLineFixed s st l = .ok st := by
  simp [scanLineFixed, h]

theorem scanLinesFixed_filter (s : Option Char) (lines : List String)
    (st : ScanState) :
    scanLinesFixed s st lines =
      scanLinesFixed s st (lines.filter (fun l => !isCommentLine l)) := by
  induction lines generalizing st with
  | nil => rfl
  | cons l ls ih =>
    by_cases h : isCommentLine l
    · have h1 : scanLinesFixed s st (l :: ls) = scanLinesFixed s st ls := by
        simp [scanLinesFixed, scanLineFixed_comment s st l h]
      have h2 : (l :: ls).filter (fun x => !isCommentLine x)
          = ls.filter (fun x => !isCommentLine x) := by
        simp [List.filter_cons, h]
      rw [h1, h2, ih]
    · have h2 : (l :: ls).filter (fun x => !isCommentLine x)
          = l :: ls.filter (fun x => !isCommentLine x) := by
        simp [List.filter_cons, h]
      rw [h2]
      simp only [scanLinesFixed]
      cases hsc : scanLineFixed s st l with
      | error e => rfl
      | ok st2 => exact ih st2

theorem scanLines_fixed (s : Option Char) (lines : List String) :
    ∀ st : ScanState, st.sep = s → st.colsN ≠ 0 →
      scanLines st lines = scanLinesFixed s st lines ∧
      ∀ st2, scanLines st lines = .ok st2 → st2.sep = s := by
  induction lines with
  | nil =>
    intro st hsep hN
    refine ⟨rfl, fun st2 h => ?_⟩
    simp only [scanLines] at h
    cases h
    exact hsep
  | cons l ls ih =>
    intro st hsep hN
    have hstep : scanLine st l = scanLineFixed s st l := by
      subst hsep
      by_cases hc : isCommentLine l
      · simp [scanLine, scanLineFixed, hc]
      · have c1 : ¬(st.colsN = 0 ∧ st.sep = none) := fun h => hN h.1
        simp [scanLine, scanLineFixed, hc, if_neg c1]
    rcases scanLine_progress st l hN with herr | ⟨st2, hok, hcols, hsep2⟩
    · constructor
      · rw [show scanLinesFixed s st (l :: ls)
              = match scanLineFixed s st l with
                | .error e => .error e
                | .ok st2 => scanLinesFixed s st2 ls from rfl]
        rw [← hstep, herr]
        simp [scanLines, herr]
      · intro st3 h
        simp only [scanLines, herr] at h
        exact absurd h (by simp)
    · have hrec := ih st2 (hsep2.trans hsep) (hcols ▸ hN)
      constructor
      · rw [show scanLinesFixed s st (l :: ls)
              = match scanLineFixed s st l with
                | .error e => .error e
                | .ok st4 => scanLinesFixed s st4 ls from rfl]
        rw [← hstep, hok]
        simp only [scanLines, hok]
        exact hrec.1
      · intro st3 h
        simp only [scanLines, hok] at h
        exact hrec.2 st3 h

/-- C5: for every input file, if some non-comment line splits (with the
detected or supplied separator) into a number of fields different from
the number of fields of the first non-comment line, then file_data_read
raises a ValueError reporting unequal number of columns, before any data
array is returned. -/
theorem file_data_read_unequal_columns
    (lines rest : List String) (line0 bad : String)
    (sep0 s : Option Char)
    (hfl : lines.filter (fun l => !isCommentLine l) = line0 :: rest)
    (hs : resolvedSep sep0 line0 = .ok s)
    (hmem : bad ∈ rest)
    (hbad : (pyFields s bad).length ≠ (pyFields s line0).length) :
    file_data_read (some lines) sep0 =
      .error "Badly formatted data file: unequal number of columns" := by
  have hnc0 : isCommentLine line0 = false := by
    have hm : line0 ∈ lines.filter (fun l => !isCommentLine l) := by
      rw [hfl]; exact List.mem_cons_self _ _
    simpa using (List.mem_filter.mp hm).2
  have hncbad : isCommentLine bad = false := by
    have hm : bad ∈ lines.filter (fun l => !isCommentLine l) := by
      rw [hfl]; exact List.mem_cons_of_mem _ hmem
    simpa using (List.mem_filter.mp hm).2
  have hn0 : 0 < (pyFields s line0).length := by
    cases sep0 with
    | some c =>
      have hsc : s = some c := by simpa [resolvedSep] using hs.symm
      subst hsc
      rw [pyFields, List.length_map, List.length_pos]
      exact sepSplit_ne_nil c _
    | none =>
      exact pyFields_pos_of_detect line0 s (by simpa [resolvedSep] using hs)
  have hfirst := scanLine_first sep0 line0 s hnc0 hs hn0
  have hfp : firstPass sep0 lines =
      .error "Badly formatted data file: unequal number of columns" := by
    rw [firstPass, scanLines_filter, hfl]
    simp only [scanLines, hfirst]
    refine scanLines_mismatch rest (firstLineState s line0) ?_ bad hmem hncbad ?_
    · simp only [firstLineState]
      omega
    · simp only [firstLineState]
      exact hbad
  simp [file_data_read, hfp]

/-- C6: if file_data_read is called with sep = None and the first
non-comment line cannot be split into more than one field by commas,
semicolons, colons, pipes or whitespace, then it raises the ValueError
for an unrecognized column delimiter; in particular a file whose data
lines hold a single delimiter-free column is rejected when no separator
is supplied. -/
theorem file_data_read_unrecognized_delim
    (lines rest : List String) (line0 : String)
    (hfl : lines.filter (fun l => !isCommentLine l) = line0 :: rest)
    (h1 : ¬ 1 < (sepSplit ',' (pyRstrip line0).data).length)
    (h2 : ¬ 1 < (sepSplit ';' (pyRstrip line0).data).length)
    (h3 : ¬ 1 < (sepSplit ':' (pyRstrip line0).data).length)
    (h4 : ¬ 1 < (sepSplit '|' (pyRstrip line0).data).length)
    (h5 : ¬ 1 < (wsSplit (pyRstrip line0).data).length) :
    file_data_read (some lines) none =
      .error "Unrecognized column deliminator" := by
  have hnc0 : isCommentLine line0 = false := by
    have hm : line0 ∈ lines.filter (fun l => !isCommentLine l) := by
      rw [hfl]; exact List.mem_cons_self _ _
    simpa using (List.mem_filter.mp hm).2
  have hdet : detectStep line0 = .error "Unrecognized column deliminator" := by
    simp [detectStep, h1, h2, h3, h4, h5]
  have hfp : firstPass none lines =
      .error "Unrecognized column deliminator" := by
    rw [firstPass, scanLines_filter, hfl]
    simp [scanLines, scanLine, hnc0, initState, hdet]
  simp [file_data_read, hfp]

/-- C9: with sep = None the column separator is inferred solely from the
first non-comment line, trying in this fixed order a comma, a semicolon,
a colon, a pipe, and finally whitespace, and the separator so inferred
is then used to split every subsequent line of the file: reading with
auto-detection equals reading the whole file with the inferred separator
fixed. -/
theorem file_data_read_sep_detection
    (lines rest : List String) (line0 : String) (s : Option Char)
    (hfl : lines.filter (fun l => !isCommentLine l) = line0 :: rest)
    (hs : detectStep line0 = .ok s) :
    file_data_read (some lines) none = file_data_read_fixedSep s lines
    ∧ (1 < (sepSplit ',' (pyRstrip line0).data).length → s = some ',')
    ∧ (¬ 1 < (sepSplit ',' (pyRstrip line0).data).length →
        1 < (sepSplit ';' (pyRstrip line0).data).length → s = some ';')
    ∧ (¬ 1 < (sepSplit ',' (pyRstrip line0).data).length →
        ¬ 1 < (sepSplit ';' (pyRstrip line0).data).length →
        1 < (sepSplit ':' (pyRstrip line0).data).length → s = some ':')
    ∧ (¬ 1 < (sepSplit ',' (pyRstrip line0).data).length →
        ¬ 1 < (sepSplit ';' (pyRstrip line0).data).length →
        ¬ 1 < (sepSplit ':' (pyRstrip line0).data).length →
        1 < (sepSplit '|' (pyRstrip line0).data).length → s = some '|')
    ∧ (¬ 1 < (sepSplit ',' (pyRstrip line0).data).length →
        ¬ 1 < (sepSplit ';' (pyRstrip line0).data).length →
        ¬ 1 < (sepSplit ':' (pyRstrip line0).data).length →
        ¬ 1 < (sepSplit '|' (pyRstrip line0).data).length → s = none) := by
  have hnc0 : isCommentLine line0 = false := by
    have hm : line0 ∈ lines.filter (fun l => !isCommentLine l) := by
      rw [hfl]; exact List.mem_cons_self _ _
    simpa using (List.mem_filter.mp hm).2
  have hn0 : 0 < (pyFields s line0).length :=
    pyFields_pos_of_detect line0 s hs
  refine ⟨?_, ?_, ?_, ?_, ?_, ?_⟩
  · have hfirst := scanLine_first none line0 s hnc0 (by simpa [resolvedSep] using hs) hn0
    have hfixedFirst := scanLineFixed_first s line0 hnc0 hn0
    have hmainL : firstPass none lines = scanLines (firstLineState s line0) rest := by
      rw [firstPass, scanLines_filter, hfl]
      simp [scanLines, hfirst]
    have hmainR : scanLinesFixed s (initState s) lines
        = scanLinesFixed s (firstLineState s line0) rest := by
      rw [scanLinesFixed_filter, hfl]
      simp [scanLinesFixed, hfixedFirst]
    have hinv := scanLines_fixed s rest (firstLineState s line0) rfl
      (by simp only [firstLineState]; omega)
    cases hres : scanLines (firstLineState s line0) rest with
    | error e =>
      have hL : firstPass none lines = .error e := by rw [hmainL, hres]
      have hR : scanLinesFixed s (initState s) lines = .error e := by
        rw [hmainR, ← hinv.1, hres]
      simp [file_data_read, file_data_read_fixedSep, hL, hR]
    | ok st2 =>
      have hsep2 : st2.sep = s := hinv.2 st2 hres
      have hL : firstPass none lines = .ok st2 := by rw [hmainL, hres]
      have hR : scanLinesFixed s (initState s) lines = .ok st2 := by
        rw [hmainR, ← hinv.1, hres]
      cases hnt : st2.numtype <;> cases hnf : st2.numformat <;>
        simp [file_data_read, file_data_read_fixedSep, hL, hR, hsep2, hnt, hnf]
  · intro h1
    simp only [detectStep, h1, if_true] at hs
    simpa using hs.symm
  · intro h1 h2
    simp only [detectStep, h1, h2, if_true, if_false] at hs
    simpa using hs.symm
  · intro h1 h2 h3
    simp only [detectStep, h1, h2, h3, if_true, if_false] at hs
    simpa using hs.symm
  · intro h1 h2 h3 h4
    simp only [detectStep, h1, h2, h3, h4, if_true, if_false] at hs
    simpa using hs.symm
  · intro h1 h2 h3 h4
    simp only [detectStep, h1, h2, h3, h4, if_false] at hs
    by_cases h5 : 1 < (wsSplit (pyRstrip line0).data).length
    · simp only [h5, if_true] at hs
      simpa using hs.symm
    · simp only [h5, if_false] at hs
      simp at hs

/-- Witness for C5 at a concrete file: two data rows of two and one
columns under the detected comma separator. -/
theorem file_data_read_unequal_columns_witness :
    file_data_read (some ["# h\n", "1,2\n", "3\n"]) none =
      .error "Badly formatted data file: unequal number of columns" :=
  file_data_read_unequal_columns ["# h\n", "1,2\n", "3\n"] ["3\n"]
    "1,2\n" "3\n" none (some ',') (by rfl) (by rfl) (by simp) (by decide)

/-- Witness for C6 at a concrete single-column file. -/
theorem file_data_read_unrecognized_delim_witness :
    file_data_read (some ["3.14\n"]) none =
      .error "Unrecognized column deliminator" :=
  file_data_read_unrecognized_delim ["3.14\n"] [] "3.14\n" (by rfl)
    (by decide) (by decide) (by decide) (by decide) (by decide)

/-- Witness for C9 at a concrete semicolon-separated file. -/
theorem file_data_read_sep_detection_witness :
    file_data_read (some ["1;2\n", "3;4\n"]) none
      = file_data_read_fixedSep (some ';') ["1;2\n", "3;4\n"] :=
  (file_data_read_sep_detection ["1;2\n", "3;4\n"] ["3;4\n"] "1;2\n"
    (some ';') (by rfl) (by rfl)).1

/-- Header comment written by file_data_store (lines 39-40 of fileio.py)
before any numtype/numformat validation happens. -/
def storeHeader (m n : Nat) (numtype numformat sep : String) : String :=
  "# Generated by QuTiP: " ++ toString m ++ "x" ++ toString n ++ " "
    ++ numtype ++ " matrix in " ++ numformat ++ " format [\x27" ++ sep
    ++ "\x27 separated values].\n"

/-- Text of the matrix body written by the nested loops of
file_data_store: row-major, each element formatted by fmt, the separator
written after every element except the last of a row, a newline after
each row. -/
def bodyText {α : Type} [Inhabited α] (fmt : α → String) (sep : String)
    (m n : Nat) (rows : List (List α)) : String :=
  String.join ((List.range m).map (fun i =>
    String.join ((List.range n).map (fun j =>
      fmt ((rows.getD i []).getD j default)
        ++ if j ≠ n - 1 then sep else "")) ++ "\n"))

/-- Embedding of file_data_store.  The filesystem is an explicit map
from path to content; opening for writing truncates.  The element-level
number formatting (Python percent-formatting of IEEE-754 floats,
including the sign-dependent complex layout) is kept as the parameter
fmt, applied as `fmt numtype numformat x` at exactly the loop positions
of the source; all validation, the write order and the ValueError
messages are translated verbatim. -/
def file_data_store {α : Type} [Inhabited α]
    (fmt : String → String → α → String)
    (fs : String → Option String) (filename : Option String)
    (dat : Option (List (List α))) (numtype numformat sep : String) :
    (String → Option String) × Except String Unit :=
  match filename, dat with
  | none, _ => (fs, .error "filename or data is unspecified")
  | _, none => (fs, .error "filename or data is unspecified")
  | some fn, some rows =>
    let m := rows.length
    let n := (rows.headD []).length
    let hdr := storeHeader m n numtype numformat sep
    if numtype = "complex" then
      if numformat = "exp" then
        (fun p => if p = fn
           then some (hdr ++ bodyText (fmt "complex" "exp") sep m n rows)
           else fs p, .ok ())
      else if numformat = "decimal" then
        (fun p => if p = fn
           then some (hdr ++ bodyText (fmt "complex" "decimal") sep m n rows)
           else fs p, .ok ())
      else
        (fun p => if p = fn then some hdr else fs p,
         .error "Illegal numformat value (should be \x27exp\x27 or \x27decimal\x27)")
    else if numtype = "real" then
      if numformat = "exp" then
        (fun p => if p = fn
           then some (hdr ++ bodyText (fmt "real" "exp") sep m n rows)
           else fs p, .ok ())
      else if numformat = "decimal" then
        (fun p => if p = fn
           then some (hdr ++ bodyText (fmt "real" "decimal") sep m n rows)
           else fs p, .ok ())
      else
        (fun p => if p = fn then some hdr else fs p,
         .error "Illegal numformat value (should be \x27exp\x27 or \x27decimal\x27)")
    else
      (fun p => if p = fn then some hdr else fs p,
       .error "Illegal numtype value (should be \x27complex\x27 or \x27real\x27)")

/-- C8: file_data_store raises ValueError exactly when filename or data
is missing, numtype is not complex/real, or numformat is not
exp/decimal; and when the error is an illegal numtype or numformat with
filename and data present, the destination file has already been opened
for writing and the header comment line written, so the error branch
does not leave the filesystem unchanged. -/
theorem file_data_store_error_behaviour {α : Type} [Inhabited α]
    (fmt : String → String → α → String) (fs : String → Option String)
    (filename : Option String) (dat : Option (List (List α)))
    (numtype numformat sep : String) :
    ((∃ e, (file_data_store fmt fs filename dat numtype numformat sep).2
        = .error e)
      ↔ (filename = none ∨ dat = none
          ∨ (numtype ≠ "complex" ∧ numtype ≠ "real")
          ∨ (numformat ≠ "exp" ∧ numformat ≠ "decimal")))
    ∧ (∀ fn rows, filename = some fn → dat = some rows →
        ((numtype ≠ "complex" ∧ numtype ≠ "real")
          ∨ (numformat ≠ "exp" ∧ numformat ≠ "decimal")) →
        (file_data_store fmt fs filename dat numtype numformat sep).1 fn
          = some (storeHeader rows.length (rows.headD []).length
                    numtype numformat sep)) := by
  cases filename with
  | none => simp [file_data_store]
  | some fn =>
    cases dat with
    | none => simp [file_data_store]
    | some rows =>
      by_cases ht : numtype = "complex"
      · by_cases hf : numformat = "exp"
        · simp [file_data_store, ht, hf]
        · by_cases hf2 : numformat = "decimal"
          · simp [file_data_store, ht, hf, hf2]
          · simp [file_data_store, ht, hf, hf2]
      · by_cases ht2 : numtype = "real"
        · by_cases hf : numformat = "exp"
          · simp [file_data_store, ht, ht2, hf]
          · by_cases hf2 : numformat = "decimal"
            · simp [file_data_store, ht, ht2, hf, hf2]
            · simp [file_data_store, ht, ht2, hf, hf2]
        · simp [file_data_store, ht, ht2]

/-- Witness for C8 at a concrete call: illegal numtype with valid
filename and data raises, and the header is already on disk. -/
theorem file_data_store_error_behaviour_witness :
    (∃ e, (file_data_store (fun _ _ (_ : Unit) => "0") (fun _ => none)
        (some "out.dat") (some [[(), ()]]) "bad" "decimal" ",").2
          = .error e)
    ∧ (file_data_store (fun _ _ (_ : Unit) => "0") (fun _ => none)
        (some "out.dat") (some [[(), ()]]) "bad" "decimal" ",").1 "out.dat"
      = some (storeHeader 1 2 "bad" "decimal" ",") := by
  constructor
  · exact (file_data_store_error_behaviour (fun _ _ (_ : Unit) => "0")
      (fun _ => none) (some "out.dat") (some [[(), ()]]) "bad" "decimal"
      ",").1.mpr (.inr (.inr (.inl (by decide))))
  · exact (file_data_store_error_behaviour (fun _ _ (_ : Unit) => "0")
      (fun _ => none) (some "out.dat") (some [[(), ()]]) "bad" "decimal"
      ",").2 "out.dat" [[(), ()]] rfl rfl (.inl (by decide))

/-- Path derivation shared by qsave and qload: pathlib
Path(name).with_suffix(suffix + ".qu") appends the .qu extension to the
given name (the existing suffix, possibly empty, is replaced by itself
followed by .qu). -/
def quPath (name : String) : String := name ++ ".qu"

/-- Embedding of qsave over an explicit filesystem mapping paths to
pickled byte strings: writes pickle.dump of the value at quPath name.
The pickle encoder is the parameter dump. -/
def qsave {α : Type} (dump : α → List UInt8)
    (fs : String → Option (List UInt8)) (dat : α) (name : String) :
    String → Option (List UInt8) :=
  fun p => if p = quPath name then some (dump dat) else fs p

/-- Embedding of qload: opens quPath name and unpickles its content
with the parameter load (none models FileNotFoundError). -/
def qload {α : Type} (load : List UInt8 → Option α)
    (fs : String → Option (List UInt8)) (name : String) : Option α :=
  match fs (quPath name) with
  | none => none
  | some bytes => load bytes

/-- C7: for every picklable value and every name, qload after qsave
returns the saved value: both functions derive the same on-disk path by
appending the .qu suffix, qsave pickles the value there and qload
unpickles exactly that file.  The pickle round-trip contract of the
external pickle module is the hypothesis hpickle. -/
theorem qload_qsave_roundtrip {α : Type}
    (dump : α → List UInt8) (load : List UInt8 → Option α)
    (hpickle : ∀ x, load (dump x) = some x)
    (fs : String → Option (List UInt8)) (dat : α) (name : String) :
    qload load (qsave dump fs dat name) name = some dat := by
  simp [qload, qsave, hpickle]

/-- Witness for C7 with a concrete one-byte pickle codec, value and
name. -/
theorem qload_qsave_roundtrip_witness :
    qload (fun l => match l with | [b] => some b | _ => none)
      (qsave (fun b => [b]) (fun _ => none) (37 : UInt8) "state")
      "state" = some 37 :=
  qload_qsave_roundtrip (fun b => [b])
    (fun l => match l with | [b] => some b | _ => none)
    (fun _ => rfl) (fun _ => none) 37 "state"

end QutipFileio

namespace QutipStochastic

/-- Modelled from the spec: the stochastic solver module
(qutip.solver.stochastic, absent from the excerpt) requires reproducible
per-trajectory random-number streams seeded deterministically; a linear
congruential generator stands in for the generator-state object. -/
def lcg (s : Nat) : Nat := (s * 1103515245 + 12345) % 2147483648

/-- Modelled from the spec: the i-th draw of the stream seeded with
seed, as a rational in [-1, 1).  The Gaussian law and the variance-dt
invariant of Wiener increments are distributional statements outside the
embedding; the stream models reproducible sampling. -/
def rngDraw (seed i : Nat) : ℚ :=
  ((Nat.iterate lcg (i + 1) seed % 2001 : Nat) : ℚ) / 1000 - 1

/-- Dot product of rational vectors. -/
def dotQ (u v : List ℚ) : ℚ := (List.zipWith (fun a b => a * b) u v).sum

/-- Matrix-vector product over rationals. -/
def matVec (A : List (List ℚ)) (v : List ℚ) : List ℚ :=
  A.map (fun r => dotQ r v)

/-- Vector addition. -/
def vaddQ (u v : List ℚ) : List ℚ := List.zipWith (fun a b => a + b) u v

/-- Scalar multiple of a vector. -/
def smulQ (c : ℚ) (v : List ℚ) : List ℚ := v.map (fun a => c * a)

/-- Elementwise matrix sum. -/
def matAdd (A B : List (List ℚ)) : List (List ℚ) := List.zipWith vaddQ A B

/-- Scalar multiple of a matrix. -/
def smulMat (c : ℚ) (A : List (List ℚ)) : List (List ℚ) := A.map (smulQ c)

/-- Modelled from the spec: a Problem Specification — Hamiltonian-derived
generator, deterministic collapse operators, stochastic collapse
operators (the measured channels), initial state, strictly increasing
time grid and observables, all over rational matrices. -/
structure StocProblem where
  hamiltonian : List (List ℚ)
  c_ops : List (List (List ℚ))
  sc_ops : List (List (List ℚ))
  psi0 : List ℚ
  e_ops : List (List (List ℚ))
  times : List ℚ

/-- Modelled from the spec: the drift term is derived from the
Hamiltonian and all collapse operators; deterministic collapse operators
contribute only here, never to the noise. -/
def drift (p : StocProblem) : List (List ℚ) :=
  (p.c_ops ++ p.sc_ops).foldl matAdd p.hamiltonian

/-- Modelled from the spec: the diffusion terms come only from the
stochastic collapse operators; heterodyne detection splits each channel
into two orthogonal quadratures with independent increments, doubling
the diffusion terms per channel. -/
def diffusionOps (p : StocProblem) (heterodyne : Bool) :
    List (List (List ℚ)) :=
  if heterodyne then
    (p.sc_ops.map (fun L => [smulMat (1/2) L, smulMat (-(1/2)) L])).flatten
  else p.sc_ops

/-- Kronecker product of vectors, used to vectorise the density matrix
for the SME variant. -/
def kronVec (u v : List ℚ) : List ℚ := (u.map (fun a => smulQ a v)).flatten

/-- Modelled from the spec: the SME variant evolves the full density
operator (vectorised initial state) while the SSE variant evolves the
pure state; the record bookkeeping is shared. -/
def smeProblem (p : StocProblem) : StocProblem :=
  { p with psi0 := kronVec p.psi0 p.psi0 }

/-- Number of independent Wiener-increment streams of one trajectory:
one per stochastic channel, doubled under heterodyne detection. -/
def nStreams (p : StocProblem) (heterodyne : Bool) : Nat :=
  if heterodyne then 2 * p.sc_ops.length else p.sc_ops.length

/-- Width of the time step starting at grid index i. -/
def dtAt (p : StocProblem) (i : Nat) : ℚ :=
  p.times.getD (i + 1) 0 - p.times.getD i 0

/-- Modelled from the spec: the Wiener increment of stream j over the
i-th interval of the trajectory seeded with seed — increments are
independent across streams and trajectories given distinct seeds. -/
def dWAt (p : StocProblem) (heterodyne : Bool) (seed j i : Nat) : ℚ :=
  rngDraw seed (i * nStreams p heterodyne + j)

/-- The increments of all streams for one interval. -/
def dWRow (p : StocProblem) (heterodyne : Bool) (seed i : Nat) : List ℚ :=
  (List.range (nStreams p heterodyne)).map
    (fun j => dWAt p heterodyne seed j i)

/-- Modelled from the spec: one Euler-Maruyama macro step — the state is
advanced by the drift over dt plus each diffusion term weighted by its
Wiener increment. -/
def emStep (A : List (List ℚ)) (Ds : List (List (List ℚ))) (dt : ℚ)
    (dWs : List ℚ) (v : List ℚ) : List ℚ :=
  (List.zipWith (fun D dw => smulQ dw (matVec D v)) Ds dWs).foldl vaddQ
    (vaddQ v (smulQ dt (matVec A v)))

/-- Trajectory state at grid index i, from sequential stochastic
stepping. -/
def stateAt (p : StocProblem) (heterodyne : Bool) (seed : Nat) :
    Nat → List ℚ
  | 0 => p.psi0
  | i + 1 =>
    emStep (drift p) (diffusionOps p heterodyne) (dtAt p i)
      (dWRow p heterodyne seed i) (stateAt p heterodyne seed i)

/-- Expectation value of observable E at grid index i. -/
def expectAt (p : StocProblem) (heterodyne : Bool) (seed : Nat)
    (E : List (List ℚ)) (i : Nat) : ℚ :=
  dotQ (stateAt p heterodyne seed i) (matVec E (stateAt p heterodyne seed i))

/-- Per-stream dW record of one trajectory: one increment per interval,
so each stream has length (number of time points) - 1. -/
def dWTrace (p : StocProblem) (heterodyne : Bool) (seed : Nat) :
    List (List ℚ) :=
  (List.range (nStreams p heterodyne)).map (fun j =>
    (List.range (p.times.length - 1)).map (fun i => dWAt p heterodyne seed j i))

/-- Per-stream Wiener trace of one trajectory: the running sum of the
increments, starting at 0, one value per time point. -/
def wienerTrace (p : StocProblem) (heterodyne : Bool) (seed : Nat) :
    List (List ℚ) :=
  (List.range (nStreams p heterodyne)).map (fun j =>
    (List.range p.times.length).map (fun i =>
      ((List.range i).map (fun t => dWAt p heterodyne seed j t)).sum))

/-- Modelled from the spec: the measurement record of a stream is
derived from its Wiener increments and the instantaneous expectation
value of the corresponding stochastic operator, one value per
interval. -/
def measTrace (p : StocProblem) (heterodyne : Bool) (seed : Nat) :
    List (List ℚ) :=
  (List.range (nStreams p heterodyne)).map (fun j =>
    (List.range (p.times.length - 1)).map (fun i =>
      dWAt p heterodyne seed j i
        + dtAt p i * dotQ (stateAt p heterodyne seed i)
            (matVec ((diffusionOps p heterodyne).getD j [])
              (stateAt p heterodyne seed i))))

/-- Expectation-value sequences of one trajectory: per observable, one
value per time point. -/
def trajExpect (p : StocProblem) (heterodyne : Bool) (seed : Nat) :
    List (List ℚ) :=
  p.e_ops.map (fun E =>
    (List.range p.times.length).map (expectAt p heterodyne seed E))

/-- A stored per-trajectory record: a (channels, points) array in
homodyne mode, a (channels, 2, points) array in heterodyne mode. -/
inductive MeasArray where
  | homo : List (List ℚ) → MeasArray
  | hetero : List (List (List ℚ)) → MeasArray
  deriving Repr, DecidableEq

/-- Modelled from the spec: heterodyne mode inserts an extra axis of
size 2 directly after the channel axis — the two quadrature streams of
channel c are grouped as a pair; homodyne mode keeps one stream per
channel with no quadrature axis. -/
def reshape (heterodyne : Bool) (k : Nat) (flat : List (List ℚ)) :
    MeasArray :=
  if heterodyne then
    .hetero ((List.range k).map (fun c =>
      [flat.getD (2 * c) [], flat.getD (2 * c + 1) []]))
  else .homo flat

/-- Modelled from the spec: the recognised configuration flags of the
solve entry point that gate optional Result contents. -/
structure StocOptions where
  store_measurement : Bool
  store_final_state : Bool
  keep_runs_results : Bool
  deriving Repr, DecidableEq

/-- Modelled from the spec: the seed argument of a solve call — absent
(derive from entropy), a single integer (derive sub-seeds), or an
explicit list reused as-is. -/
inductive SeedSpec where
  | auto : SeedSpec
  | single : Nat → SeedSpec
  | list : List Nat → SeedSpec

/-- Modelled from the spec: seed resolution of the Ensemble Runner —
no seeds derives ntraj seeds from the process entropy source, a single
seed derives ntraj distinct sub-seeds, an explicit list is used
directly. -/
def resolveSeeds (ntraj entropy : Nat) : SeedSpec → List Nat
  | .auto => (List.range ntraj).map (fun i => Nat.iterate lcg (i + 1) entropy)
  | .single s => (List.range ntraj).map (fun i => Nat.iterate lcg (i + 1) s)
  | .list l => l

/-- Elementwise sum of two expectation tables. -/
def addExpect (a b : List (List ℚ)) : List (List ℚ) := List.zipWith vaddQ a b

/-- Ensemble average of per-trajectory expectation tables. -/
def avgExpect (runs : List (List (List ℚ))) : List (List ℚ) :=
  match runs with
  | [] => []
  | r :: rs =>
    (rs.foldl addExpect r).map (smulQ ((1 : ℚ) / ((rs.length + 1 : Nat) : ℚ)))

/-- Modelled from the spec: the Result of a stochastic solve — the
realized seed list, ensemble-averaged expectation values, per-trajectory
final states, and the optional per-trajectory expectation tables,
measurement records, Wiener traces and dW records gated by the
configuration flags. -/
structure StocResult where
  seeds : List Nat
  averageExpect : List (List ℚ)
  finalStates : List (List ℚ)
  runsExpect : Option (List (List (List ℚ)))
  measurement : Option (List MeasArray)
  wienerProcess : Option (List MeasArray)
  dWRecord : Option (List MeasArray)

/-- Modelled from the spec: the solve entry point shared by smesolve
(sme = true, density-operator state) and ssesolve (sme = false, pure
state): resolve the seeds, run one independent trajectory per seed, and
assemble the Result, storing measurement, Wiener and dW records only
when store_measurement is set. -/
def stochasticSolve (sme : Bool) (p : StocProblem) (heterodyne : Bool)
    (opts : StocOptions) (ntraj : Nat) (sd : SeedSpec) (entropy : Nat) :
    StocResult :=
  let q := if sme then smeProblem p else p
  let seeds := resolveSeeds ntraj entropy sd
  let k := p.sc_ops.length
  { seeds := seeds
    averageExpect := avgExpect (seeds.map (fun s => trajExpect q heterodyne s))
    finalStates := seeds.map (fun s => stateAt q heterodyne s (p.times.length - 1))
    runsExpect :=
      if opts.keep_runs_results then
        some (seeds.map (fun s => trajExpect q heterodyne s))
      else none
    measurement :=
      if opts.store_measurement then
        some (seeds.map (fun s => reshape heterodyne k (measTrace q heterodyne s)))
      else none
    wienerProcess :=
      if opts.store_measurement then
        some (seeds.map (fun s => reshape heterodyne k (wienerTrace q heterodyne s)))
      else none
    dWRecord :=
      if opts.store_measurement then
        some (seeds.map (fun s => reshape heterodyne k (dWTrace q heterodyne s)))
      else none }

/-- Modelled from the spec: smesolve, the density-operator variant. -/
def smesolve (p : StocProblem) (heterodyne : Bool) (opts : StocOptions)
    (ntraj : Nat) (sd : SeedSpec) (entropy : Nat) : StocResult :=
  stochasticSolve true p heterodyne opts ntraj sd entropy

/-- Modelled from the spec: ssesolve, the pure-state variant. -/
def ssesolve (p : StocProblem) (heterodyne : Bool) (opts : StocOptions)
    (ntraj : Nat) (sd : SeedSpec) (entropy : Nat) : StocResult :=
  stochasticSolve false p heterodyne opts ntraj sd entropy

/-- A two-axis array has shape (d1, d2). -/
def HasShape2 (a : List (List ℚ)) (d1 d2 : Nat) : Prop :=
  a.length = d1 ∧ ∀ r ∈ a, r.length = d2

/-- A three-axis array has shape (d1, d2, d3). -/
def HasShape3 (a : List (List (List ℚ))) (d1 d2 d3 : Nat) : Prop :=
  a.length = d1 ∧ ∀ r ∈ a, HasShape2 r d2 d3

/-- Shape contract of one stored record: (k, last) in homodyne mode,
(k, 2, last) in heterodyne mode. -/
def MeasShape (heterodyne : Bool) (m : MeasArray) (k last : Nat) : Prop :=
  match heterodyne, m with
  | false, .homo a => HasShape2 a k last
  | true, .hetero a => HasShape3 a k 2 last
  | _, _ => False

theorem dWTrace_shape (p : StocProblem) (heterodyne : Bool) (seed : Nat) :
    HasShape2 (dWTrace p heterodyne seed) (nStreams p heterodyne)
      (p.times.length - 1) := by
  constructor
  · simp [dWTrace]
  · intro r hr
    rcases List.mem_map.mp hr with ⟨j, _, rfl⟩
    simp

theorem wienerTrace_shape (p : StocProblem) (heterodyne : Bool) (seed : Nat) :
    HasShape2 (wienerTrace p heterodyne seed) (nStreams p heterodyne)
      p.times.length := by
  constructor
  · simp [wienerTrace]
  · intro r hr
    rcases List.mem_map.mp hr with ⟨j, _, rfl⟩
    simp

theorem measTrace_shape (p : StocProblem) (heterodyne : Bool) (seed : Nat) :
    HasShape2 (measTrace p heterodyne seed) (nStreams p heterodyne)
      (p.times.length - 1) := by
  constructor
  · simp [measTrace]
  · intro r hr
    rcases List.mem_map.mp hr with ⟨j, _, rfl⟩
    simp

theorem reshape_shape (heterodyne : Bool) (k last : Nat)
    (flat : List (List ℚ))
    (hlen : flat.length = (if heterodyne then 2 * k else k))
    (hrow : ∀ r ∈ flat, r.length = last) :
    MeasShape heterodyne (reshape heterodyne k flat) k last := by
  cases heterodyne with
  | false =>
    simp only [reshape, if_neg Bool.false_ne_true, MeasShape]
    exact ⟨by simpa using hlen, hrow⟩
  | true =>
    simp only [reshape, if_pos rfl, MeasShape, HasShape3]
    constructor
    · simp
    · intro r hr
      rcases List.mem_map.mp hr with ⟨c, hc, rfl⟩
      rw [List.mem_range] at hc
      refine ⟨rfl, ?_⟩
      intro x hx
      have h2k : flat.length = 2 * k := by simpa using hlen
      rcases List.mem_pair.mp hx with h | h
      · subst h
        apply hrow
        have hb : 2 * c < flat.length := by omega
        rw [List.getD_eq_getElem flat [] hb]
        exact List.getElem_mem _
      · subst h
        apply hrow
        have hb : 2 * c + 1 < flat.length := by omega
        rw [List.getD_eq_getElem flat [] hb]
        exact List.getElem_mem _

theorem solve_records (sme heterodyne : Bool) (p : StocProblem)
    (opts : StocOptions) (ntraj entropy : Nat) (sd : SeedSpec)
    (h : opts.store_measurement = true) :
    (stochasticSolve sme p heterodyne opts ntraj sd entropy).measurement
      = some ((resolveSeeds ntraj entropy sd).map (fun s =>
          reshape heterodyne p.sc_ops.length
            (measTrace (if sme then smeProblem p else p) heterodyne s)))
    ∧ (stochasticSolve sme p heterodyne opts ntraj sd entropy).wienerProcess
      = some ((resolveSeeds ntraj entropy sd).map (fun s =>
          reshape heterodyne p.sc_ops.length
            (wienerTrace (if sme then smeProblem p else p) heterodyne s)))
    ∧ (stochasticSolve sme p heterodyne opts ntraj sd entropy).dWRecord
      = some ((resolveSeeds ntraj entropy sd).map (fun s =>
          reshape heterodyne p.sc_ops.length
            (dWTrace (if sme then smeProblem p else p) heterodyne s))) := by
  refine ⟨?_, ?_, ?_⟩ <;> simp [stochasticSolve, h]

/-- C1: for every stochastic solve (smesolve or ssesolve) with
store_measurement enabled, k stochastic channels and n time points, each
per-trajectory Wiener trace has shape (k, n) and each per-trajectory dW
array and measurement record has shape (k, n-1) in homodyne mode; in
heterodyne mode each of the three gains an extra axis of size 2 directly
after the channel axis, giving (k, 2, n) and (k, 2, n-1). -/
theorem stochastic_record_shapes (sme heterodyne : Bool) (p : StocProblem)
    (opts : StocOptions) (ntraj entropy : Nat) (sd : SeedSpec)
    (h : opts.store_measurement = true) :
    (∃ ms, (stochasticSolve sme p heterodyne opts ntraj sd entropy).measurement
        = some ms
      ∧ ∀ m ∈ ms, MeasShape heterodyne m p.sc_ops.length (p.times.length - 1))
    ∧ (∃ ws, (stochasticSolve sme p heterodyne opts ntraj sd entropy).wienerProcess
        = some ws
      ∧ ∀ w ∈ ws, MeasShape heterodyne w p.sc_ops.length p.times.length)
    ∧ (∃ ds, (stochasticSolve sme p heterodyne opts ntraj sd entropy).dWRecord
        = some ds
      ∧ ∀ d ∈ ds, MeasShape heterodyne d p.sc_ops.length (p.times.length - 1)) := by
  have hsc : (if sme then smeProblem p else p).sc_ops = p.sc_ops := by
    cases sme <;> simp [smeProblem]
  have hti : (if sme then smeProblem p else p).times = p.times := by
    cases sme <;> simp [smeProblem]
  obtain ⟨hm, hw, hd⟩ := solve_records sme heterodyne p opts ntraj entropy sd h
  refine ⟨⟨_, hm, ?_⟩, ⟨_, hw, ?_⟩, ⟨_, hd, ?_⟩⟩
  · intro m hmem
    rcases List.mem_map.mp hmem with ⟨s, _, rfl⟩
    have h1 := (measTrace_shape (if sme then smeProblem p else p) heterodyne s).1
    have h2 := (measTrace_shape (if sme then smeProblem p else p) heterodyne s).2
    rw [hti] at h2
    refine reshape_shape heterodyne _ _ _ ?_ h2
    rw [h1, nStreams, hsc]
  · intro w hmem
    rcases List.mem_map.mp hmem with ⟨s, _, rfl⟩
    have h1 := (wienerTrace_shape (if sme then smeProblem p else p) heterodyne s).1
    have h2 := (wienerTrace_shape (if sme then smeProblem p else p) heterodyne s).2
    rw [hti] at h2
    refine reshape_shape heterodyne _ _ _ ?_ h2
    rw [h1, nStreams, hsc]
  · intro d hmem
    rcases List.mem_map.mp hmem with ⟨s, _, rfl⟩
    have h1 := (dWTrace_shape (if sme then smeProblem p else p) heterodyne s).1
    have h2 := (dWTrace_shape (if sme then smeProblem p else p) heterodyne s).2
    rw [hti] at h2
    refine reshape_shape heterodyne _ _ _ ?_ h2
    rw [h1, nStreams, hsc]

/-- A small concrete problem used by the concrete witnesses: one mode,
one stochastic channel, one observable, two time points. -/
def sampleProblem : StocProblem :=
  { hamiltonian := [[0]], c_ops := [], sc_ops := [[[1]]], psi0 := [1],
    e_ops := [[[1]]], times := [0, 1] }

/-- Witness for C1 at a concrete homodyne ssesolve call with
store_measurement on. -/
theorem stochastic_record_shapes_witness :
    (∃ ms, (stochasticSolve false sampleProblem false ⟨true, false, false⟩
        1 (SeedSpec.list [0]) 0).measurement = some ms
      ∧ ∀ m ∈ ms, MeasShape false m sampleProblem.sc_ops.length
          (sampleProblem.times.length - 1))
    ∧ (∃ ws, (stochasticSolve false sampleProblem false ⟨true, false, false⟩
        1 (SeedSpec.list [0]) 0).wienerProcess = some ws
      ∧ ∀ w ∈ ws, MeasShape false w sampleProblem.sc_ops.length
          sampleProblem.times.length)
    ∧ (∃ ds, (stochasticSolve false sampleProblem false ⟨true, false, false⟩
        1 (SeedSpec.list [0]) 0).dWRecord = some ds
      ∧ ∀ d ∈ ds, MeasShape false d sampleProblem.sc_ops.length
          (sampleProblem.times.length - 1)) :=
  stochastic_record_shapes false false sampleProblem ⟨true, false, false⟩
    1 0 (SeedSpec.list [0]) rfl

/-- C2: rerunning a stochastic solve with the identical problem and the
seed list captured from a first run's Result reproduces bit-identical
per-trajectory final states and bit-identical expectation-value
sequences (per-trajectory and ensemble-averaged), regardless of the
entropy available to the second run. -/
theorem stochastic_reuse_seeds (sme heterodyne : Bool) (p : StocProblem)
    (opts : StocOptions) (ntraj : Nat) (sd : SeedSpec)
    (entropy entropy2 : Nat) :
    (stochasticSolve sme p heterodyne opts ntraj
        (SeedSpec.list
          (stochasticSolve sme p heterodyne opts ntraj sd entropy).seeds)
        entropy2).finalStates
      = (stochasticSolve sme p heterodyne opts ntraj sd entropy).finalStates
    ∧ (stochasticSolve sme p heterodyne opts ntraj
        (SeedSpec.list
          (stochasticSolve sme p heterodyne opts ntraj sd entropy).seeds)
        entropy2).averageExpect
      = (stochasticSolve sme p heterodyne opts ntraj sd entropy).averageExpect
    ∧ (stochasticSolve sme p heterodyne opts ntraj
        (SeedSpec.list
          (stochasticSolve sme p heterodyne opts ntraj sd entropy).seeds)
        entropy2).runsExpect
      = (stochasticSolve sme p heterodyne opts ntraj sd entropy).runsExpect :=
  ⟨rfl, rfl, rfl⟩

/-- C4: when store_measurement is false the Result carries no
measurement record, no Wiener trace and no dW record, in homodyne and
heterodyne mode alike. -/
theorem stochastic_no_records_without_store (sme heterodyne : Bool)
    (p : StocProblem) (opts : StocOptions) (ntraj entropy : Nat)
    (sd : SeedSpec) (h : opts.store_measurement = false) :
    (stochasticSolve sme p heterodyne opts ntraj sd entropy).measurement = none
    ∧ (stochasticSolve sme p heterodyne opts ntraj sd entropy).wienerProcess = none
    ∧ (stochasticSolve sme p heterodyne opts ntraj sd entropy).dWRecord = none := by
  refine ⟨?_, ?_, ?_⟩ <;> simp [stochasticSolve, h]

/-- Witness for C4 at a concrete heterodyne smesolve call with
store_measurement off. -/
theorem stochastic_no_records_without_store_witness :
    (stochasticSolve true sampleProblem true ⟨false, true, true⟩
        2 (SeedSpec.single 7) 0).measurement = none
    ∧ (stochasticSolve true sampleProblem true ⟨false, true, true⟩
        2 (SeedSpec.single 7) 0).wienerProcess = none
    ∧ (stochasticSolve true sampleProblem true ⟨false, true, true⟩
        2 (SeedSpec.single 7) 0).dWRecord = none :=
  stochastic_no_records_without_store true true sampleProblem
    ⟨false, true, true⟩ 2 0 (SeedSpec.single 7) rfl

end QutipStochastic
